import Mathlib

/-!
Shallow embedding of rsync's `compat.c` (protocol-version negotiation and
feature gating): `check_sub_protocol` and `setup_protocol`, split into the
phases the source performs in order, with the wire reads passed in as
explicit inputs and the wire writes returned as an explicit list.
-/

namespace RsyncCompat

/-- Protocol constants from `rsync.h` (not part of this repository's sources),
kept as parameters of the embedding. -/
structure ProtoConsts where
  PROTOCOL_VERSION : Int
  SUBPROTOCOL_VERSION : Int
  MIN_PROTOCOL_VERSION : Int
  MAX_PROTOCOL_VERSION : Int
  OLD_PROTOCOL_VERSION : Int
deriving Repr, DecidableEq

/-- Modelled from the spec: `PTR_EXTRA_LEN` of `rsync.h` is absent from the
sources; the spec fixes the sending side's baseline at 2 slots ("room for a
wide back-reference"), so the constant is 2. -/
def PTR_EXTRA_LEN : Int := 2

/-- The globals consumed by `compat.c`, as one input record.  C `int` flags
that are only ever tested for truthiness become `Bool`; counters stay `Int`. -/
structure Config where
  am_server : Bool
  am_sender : Bool
  local_server : Bool
  read_batch : Bool
  shell_cmd : Option String
  protocol_version : Int
  remote_protocol : Int
  preserve_uid : Bool
  preserve_gid : Bool
  preserve_acls : Bool
  preserve_xattrs : Bool
  preserve_hard_links : Bool
  max_delete : Int
  fuzzy_basis : Bool
  basis_dir_cnt : Int
  inplace : Bool
  prune_empty_dirs : Bool
  delete_mode : Bool
  delete_before : Bool
  delete_during : Bool
  delete_after : Bool
  recurse : Bool
  allow_inc_recurse : Bool
  relative_paths : Bool
  implied_dirs : Bool
  delay_updates : Bool
  use_qsort : Bool
  need_messages_from_generator : Bool
  partial_dir : Option String
  dest_option : String
  checksum_seed : Int

/-- Accumulate the leading decimal digits of `cs` onto `acc`, stopping at the
first non-digit, as C's `atoi` does after the sign. -/
def atoiDigits : List Char → Int → Int
  | [], acc => acc
  | ch :: cs, acc =>
    if ch.isDigit then atoiDigits cs (acc * 10 + ((ch.toNat : Int) - 48)) else acc

/-- C whitespace, as skipped by `atoi`. -/
def isSpaceC (ch : Char) : Bool :=
  ch = ' ' || ch = '\t' || ch = '\n' || ch = '\x0b' || ch = '\x0c' || ch = '\r'

/-- C `atoi`: skip whitespace, optional sign, then leading digits (0 when
there are none). -/
def atoi (cs : List Char) : Int :=
  match cs.dropWhile isSpaceC with
  | '-' :: rest => - atoiDigits rest 0
  | '+' :: rest => atoiDigits rest 0
  | rest => atoiDigits rest 0

/-- The suffix of `cs` after its first `'.'`, as `strchr(s, '.')` plus one. -/
def afterDot : List Char → Option (List Char)
  | [] => none
  | ch :: cs => if ch = '.' then some cs else afterDot cs

/-- The guard chain of `check_sub_protocol` lines 73-75: the hint parses when
`shell_cmd` is present, holds a dot, and both `atoi(shell_cmd)` and
`atoi(dot+1)` are nonzero; any failure collapses to `none`. -/
def parseHint : Option String → Option (Int × Int)
  | none => none
  | some s =>
    match afterDot s.data with
    | none => none
    | some rest =>
      let their_protocol := atoi s.data
      if their_protocol = 0 then none
      else
        let their_sub := atoi rest
        if their_sub = 0 then none else some (their_protocol, their_sub)

/-- `our_sub` of `check_sub_protocol` line 71. -/
def ourSub (k : ProtoConsts) (pv : Int) : Int :=
  if pv < k.PROTOCOL_VERSION then 0 else k.SUBPROTOCOL_VERSION

/-- `check_sub_protocol` (compat.c lines 67-91) as a function from the current
`protocol_version` to the possibly demoted one. -/
def check_sub_protocol (k : ProtoConsts) (shell_cmd : Option String) (pv : Int) : Int :=
  let our_sub := ourSub k pv
  match parseHint shell_cmd with
  | none => if our_sub ≠ 0 then pv - 1 else pv
  | some (their_protocol, their_sub) =>
    if their_protocol < pv then
      if their_sub ≠ 0 then their_protocol - 1 else pv
    else
      let their_sub := if their_protocol > pv then 0 else their_sub
      if their_sub ≠ our_sub then pv - 1 else pv

/-- The file-list extra-attribute indices set by `setup_protocol` lines
95-106. -/
structure Extras where
  file_extra_cnt : Int
  uid_ndx : Int
  gid_ndx : Int
  acls_ndx : Int
  xattrs_ndx : Int
deriving Repr, DecidableEq

/-- Slot allocation, `setup_protocol` lines 95-106: a role-dependent baseline,
then one slot each for uid, gid, acls (receiver only) and xattrs, in that
order, when requested. -/
def allocExtras (c : Config) : Extras :=
  let fec : Int := if c.am_sender then 0 + PTR_EXTRA_LEN else 0 + 1
  let (fec, uid_ndx) := if c.preserve_uid then (fec + 1, fec + 1) else (fec, 0)
  let (fec, gid_ndx) := if c.preserve_gid then (fec + 1, fec + 1) else (fec, 0)
  let (fec, acls_ndx) :=
    if c.preserve_acls && !c.am_sender then (fec + 1, fec + 1) else (fec, 0)
  let (fec, xattrs_ndx) := if c.preserve_xattrs then (fec + 1, fec + 1) else (fec, 0)
  ⟨fec, uid_ndx, gid_ndx, acls_ndx, xattrs_ndx⟩

/-- The fatal `exit_cleanup(RERR_PROTOCOL)` outcomes of `setup_protocol`,
tagged by which message fired.  `featureVersion` carries the feature's name,
the required floor and the negotiated version, as the messages do. -/
inductive RError where
  | batchTooNew (remote negotiated : Int)
  | remoteOutOfRange (remote : Int)
  | protocolTooLow (floor : Int)
  | protocolTooHigh (ceiling : Int)
  | featureVersion (feature : String) (floor : Int) (negotiated : Int)
deriving Repr, DecidableEq

/-- The remote version `setup_protocol` ends up comparing against in the
batch check: the pre-set `remote_protocol` when nonzero, else the wire read. -/
def recordedVersion (c : Config) (wire : Int) : Int :=
  if c.remote_protocol = 0 then wire else c.remote_protocol

/-- Lines 109-110 of `setup_protocol`: `check_sub_protocol` adjusts
`protocol_version` only for a server with a genuinely remote peer. -/
def subAdjusted (k : ProtoConsts) (c : Config) : Int :=
  if c.am_server && !c.local_server then
    check_sub_protocol k c.shell_cmd c.protocol_version
  else c.protocol_version

/-- The local working version entering the exchange: `protocol_version`
after `check_sub_protocol` when that step runs (live exchange), unchanged
otherwise. -/
def localWorking (k : ProtoConsts) (c : Config) : Int :=
  if c.remote_protocol = 0 then subAdjusted k c else c.protocol_version

/-- Version exchange and batch check, `setup_protocol` lines 108-121: on a
live exchange (global `remote_protocol` still 0) run `check_sub_protocol`
for a server with a remote peer, write our version unless replaying a batch,
read the remote version, and clamp downward; then fail a batch replay whose
recorded version is still above ours.  Returns the `(protocol_version,
remote_protocol)` outcome and the list of ints written outward. -/
def negotiateVersion (k : ProtoConsts) (c : Config) (wire : Int) :
    Except RError (Int × Int) × List Int :=
  let (pv, rp, ws) :=
    if c.remote_protocol = 0 then
      let pv0 := subAdjusted k c
      let ws : List Int := if c.read_batch then [] else [pv0]
      let pv1 := if pv0 > wire then wire else pv0
      (pv1, wire, ws)
    else
      (c.protocol_version, c.remote_protocol, ([] : List Int))
  if c.read_batch ∧ rp > pv then (Except.error (RError.batchTooNew rp pv), ws)
  else (Except.ok (pv, rp), ws)

/-- Version-range checks, `setup_protocol` lines 127-146: remote version in
the supported window, then our version against the floor and the build's own
ceiling.  The `Bool` result is the non-fatal old-version advisory of lines
133-136. -/
def rangeChecks (k : ProtoConsts) (pv rp : Int) : Except RError Bool :=
  if rp < k.MIN_PROTOCOL_VERSION ∨ rp > k.MAX_PROTOCOL_VERSION then
    Except.error (RError.remoteOutOfRange rp)
  else if pv < k.MIN_PROTOCOL_VERSION then
    Except.error (RError.protocolTooLow k.MIN_PROTOCOL_VERSION)
  else if pv > k.PROTOCOL_VERSION then
    Except.error (RError.protocolTooHigh k.PROTOCOL_VERSION)
  else Except.ok (decide (rp < k.OLD_PROTOCOL_VERSION))

/-- The policy outputs of the feature-gate block. -/
structure GateOut where
  delete_before : Bool
  delete_during : Bool
  delete_after : Bool
  inc_recurse : Bool
  need_messages_from_generator : Bool
deriving Repr, DecidableEq

/-- Feature gating and policy resolution, `setup_protocol` lines 148-218, in
source order: the version-30 gates, the deletion-timing default, the
version-29 gates, then incremental-recursion eligibility and the
messages-from-generator flag for version 30 and above. -/
def featureGates (c : Config) (pv : Int) : Except RError GateOut :=
  if pv < 30 ∧ c.max_delete = 0 ∧ c.am_sender then
    Except.error (RError.featureVersion "--max-delete=0" 30 pv)
  else if pv < 30 ∧ c.preserve_acls ∧ ¬ c.local_server then
    Except.error (RError.featureVersion "--acls" 30 pv)
  else if pv < 30 ∧ c.preserve_xattrs ∧ ¬ c.local_server then
    Except.error (RError.featureVersion "--xattrs" 30 pv)
  else
    let (db, dd, da) :=
      if c.delete_mode ∧ ¬ (c.delete_before ∨ c.delete_during ∨ c.delete_after) then
        if pv < 30 then (true, c.delete_during, c.delete_after)
        else (c.delete_before, true, c.delete_after)
      else (c.delete_before, c.delete_during, c.delete_after)
    if pv < 29 ∧ c.fuzzy_basis then
      Except.error (RError.featureVersion "--fuzzy" 29 pv)
    else if pv < 29 ∧ c.basis_dir_cnt ≠ 0 ∧ c.inplace then
      Except.error (RError.featureVersion (c.dest_option ++ " with --inplace") 29 pv)
    else if pv < 29 ∧ c.basis_dir_cnt > 1 then
      Except.error (RError.featureVersion ("more than one " ++ c.dest_option) 29 pv)
    else if pv < 29 ∧ c.prune_empty_dirs then
      Except.error (RError.featureVersion "--prune-empty-dirs" 29 pv)
    else
      let ir := decide (30 ≤ pv ∧ c.recurse ∧ c.allow_inc_recurse
        ∧ ¬ c.preserve_hard_links ∧ ¬ db ∧ ¬ da ∧ ¬ c.delay_updates
        ∧ (¬ c.relative_paths ∨ c.implied_dirs) ∧ ¬ c.use_qsort
        ∧ ¬ c.prune_empty_dirs)
      let nm := if 30 ≤ pv then true else c.need_messages_from_generator
      Except.ok ⟨db, dd, da, ir, nm⟩

/-- Modelled from the spec: the `MATCHFLG_*` bits of `rsync.h` are absent from
the sources; the flags a registered rule carries are kept as named booleans
("directory, no-prefix-expansion" semantics plus the perishable mark). -/
structure RuleFlags where
  noPrefixBit : Bool
  directoryBit : Bool
  perishableBit : Bool
deriving Repr, DecidableEq

/-- Partial-dir rule registration, `setup_protocol` lines 220-225: when a
staging path is set, its first character is not `/`, and this side is not a
server or is a local loopback, call `parse_rule` with the directory and
no-prefix bits, adding the perishable bit unless this is the sender below
protocol 30.  The result is the registration call made, if any. -/
def partialRule (c : Config) (pv : Int) : Option (String × RuleFlags) :=
  match c.partial_dir with
  | none => none
  | some s =>
    if s.data.head? ≠ some '/' ∧ (¬ c.am_server ∨ c.local_server) then
      some (s, ⟨true, true, !c.am_sender || decide (pv ≥ 30)⟩)
    else none

/-- Seed exchange, `setup_protocol` lines 227-233: the server takes its
pre-configured seed, or the clock when none, and writes it; the client reads
it.  Returns the final seed and the ints written outward. -/
def seedExchange (c : Config) (now wireSeed : Int) : Int × List Int :=
  if c.am_server then
    let seed := if c.checksum_seed = 0 then now else c.checksum_seed
    (seed, [seed])
  else (wireSeed, [])

/-- The full observable outcome of a successful `setup_protocol` run. -/
structure SetupOut where
  extras : Extras
  protocol_version : Int
  remote_protocol : Int
  old_advisory : Bool
  gates : GateOut
  rule : Option (String × RuleFlags)
  checksum_seed : Int
  writes : List Int
deriving Repr, DecidableEq

/-- `setup_protocol` (compat.c lines 93-234), composing the phases in source
order: slot allocation, version negotiation, range checks, feature gates,
partial-dir rule registration, seed exchange. -/
def setup_protocol (k : ProtoConsts) (c : Config) (wire now wireSeed : Int) :
    Except RError SetupOut :=
  let ex := allocExtras c
  match negotiateVersion k c wire with
  | (Except.error e, _) => Except.error e
  | (Except.ok (pv, rp), ws) =>
    match rangeChecks k pv rp with
    | Except.error e => Except.error e
    | Except.ok adv =>
      match featureGates c pv with
      | Except.error e => Except.error e
      | Except.ok g =>
        let rule := partialRule c pv
        let (seed, ws2) := seedExchange c now wireSeed
        Except.ok ⟨ex, pv, rp, adv, g, rule, seed, ws ++ ws2⟩

/-- The final-release constants: protocol 30 with sub-protocol revision 0. -/
def kFinal : ProtoConsts :=
  { PROTOCOL_VERSION := 30, SUBPROTOCOL_VERSION := 0
    MIN_PROTOCOL_VERSION := 20, MAX_PROTOCOL_VERSION := 40
    OLD_PROTOCOL_VERSION := 25 }

/-- A pre-release build's constants: sub-protocol revision 2 of protocol 31. -/
def kPre : ProtoConsts :=
  { PROTOCOL_VERSION := 31, SUBPROTOCOL_VERSION := 2
    MIN_PROTOCOL_VERSION := 20, MAX_PROTOCOL_VERSION := 40
    OLD_PROTOCOL_VERSION := 25 }

/-- A plain client configuration used to build concrete sessions. -/
def baseCfg : Config :=
  { am_server := false, am_sender := false, local_server := false
    read_batch := false, shell_cmd := none
    protocol_version := 30, remote_protocol := 0
    preserve_uid := false, preserve_gid := false, preserve_acls := false
    preserve_xattrs := false, preserve_hard_links := false
    max_delete := -1, fuzzy_basis := false, basis_dir_cnt := 0
    inplace := false, prune_empty_dirs := false
    delete_mode := false, delete_before := false, delete_during := false
    delete_after := false, recurse := false, allow_inc_recurse := false
    relative_paths := false, implied_dirs := false, delay_updates := false
    use_qsort := false, need_messages_from_generator := false
    partial_dir := none, dest_option := "--compare-dest", checksum_seed := 0 }

/-- A hint that parses did so through the nonzero guards of lines 74-75, so
both of its components are nonzero. -/
theorem parseHint_ne_zero (sc : Option String) (tp ts : Int)
    (h : parseHint sc = some (tp, ts)) : tp ≠ 0 ∧ ts ≠ 0 := by
  cases sc with
  | none => simp [parseHint] at h
  | some s =>
    simp only [parseHint] at h
    cases hd : afterDot s.data with
    | none => rw [hd] at h; exact absurd h (by simp)
    | some rest =>
      rw [hd] at h
      dsimp only at h
      by_cases h1 : atoi s.data = 0
      · rw [if_pos h1] at h; exact absurd h (by simp)
      · rw [if_neg h1] at h
        by_cases h2 : atoi rest = 0
        · rw [if_pos h2] at h; exact absurd h (by simp)
        · rw [if_neg h2] at h
          obtain ⟨rfl, rfl⟩ := Prod.mk.injEq .. ▸ Option.some.injEq .. ▸ h
          exact ⟨h1, h2⟩

/-- `check_sub_protocol` never raises the version it is given. -/
theorem check_sub_protocol_le (k : ProtoConsts) (sc : Option String) (pv : Int) :
    check_sub_protocol k sc pv ≤ pv := by
  unfold check_sub_protocol
  cases h : parseHint sc with
  | none => dsimp only; split <;> omega
  | some p =>
    obtain ⟨tp, ts⟩ := p
    dsimp only
    split
    · split <;> omega
    · split <;> omega

/-- The sub-protocol adjustment never raises `protocol_version`. -/
theorem subAdjusted_le (k : ProtoConsts) (c : Config) :
    subAdjusted k c ≤ c.protocol_version := by
  unfold subAdjusted
  split
  · exact check_sub_protocol_le k c.shell_cmd c.protocol_version
  · exact le_refl _

/-- C3: with the sending role and exactly owner-id and extended-attributes
preservation requested (group-id and ACL preservation not requested), slot
allocation puts owner-id at index 3 and extended-attributes at index 4 on the
sender's baseline of 2 reserved slots, for a total slot count of 4. -/
theorem C3_sender_slot_layout (c : Config) (hs : c.am_sender = true)
    (hu : c.preserve_uid = true) (hg : c.preserve_gid = false)
    (ha : c.preserve_acls = false) (hx : c.preserve_xattrs = true) :
    allocExtras c = ⟨4, 3, 0, 0, 4⟩ := by
  simp only [allocExtras, hs, hu, hg, ha, hx, PTR_EXTRA_LEN]
  norm_num

/-- A sender that preserves owner ids and extended attributes only. -/
def senderUidXattrsCfg : Config :=
  { baseCfg with am_sender := true, preserve_uid := true, preserve_xattrs := true }

/-- Witness for C3 at a concrete sender configuration. -/
theorem C3_sender_slot_layout_witness :
    allocExtras senderUidXattrsCfg = ⟨4, 3, 0, 0, 4⟩ :=
  C3_sender_slot_layout senderUidXattrsCfg rfl rfl rfl rfl rfl

/-- On an unusable hint, `check_sub_protocol` reduces to the `our_sub` test
of lines 76-78. -/
theorem check_sub_protocol_of_none (k : ProtoConsts) (sc : Option String)
    (pv : Int) (h : parseHint sc = none) :
    check_sub_protocol k sc pv = if ourSub k pv ≠ 0 then pv - 1 else pv := by
  unfold check_sub_protocol
  rw [h]

/-- C4: when the sub-protocol hint is absent, malformed, or has a
zero-valued component (all collapsed by the parse guards into `none`), the
resolver lowers `protocol_version` by exactly 1 when the local sub-protocol
revision is nonzero, and leaves it unchanged when that revision is 0. -/
theorem C4_no_usable_hint (k : ProtoConsts) (sc : Option String) (pv : Int)
    (h : parseHint sc = none) :
    (ourSub k pv ≠ 0 → check_sub_protocol k sc pv = pv - 1) ∧
    (ourSub k pv = 0 → check_sub_protocol k sc pv = pv) := by
  rw [check_sub_protocol_of_none k sc pv h]
  constructor
  · intro hs
    exact if_pos hs
  · intro hs
    exact if_neg (fun hn => hn hs)

/-- Witness for C4: a malformed hint on a pre-release build demotes 31 to 30;
the conjunction is instantiated at that input. -/
theorem C4_no_usable_hint_witness :
    check_sub_protocol kPre (some "banana") 31 = 31 - 1 :=
  (C4_no_usable_hint kPre (some "banana") 31 rfl).1 (by decide)

/-- C5: when the hint parses and the peer's major version is behind ours,
the resolver yields `peer_major - 1` when the peer's sub-revision is nonzero
and leaves the version unchanged when that sub-revision is zero (a case the
parse guards make vacuous: a zero sub-revision never parses), in both cases
without reaching the final sub-revision comparison. -/
theorem C5_peer_behind (k : ProtoConsts) (sc : Option String) (pv tp ts : Int)
    (h : parseHint sc = some (tp, ts)) (hlt : tp < pv) :
    (ts ≠ 0 → check_sub_protocol k sc pv = tp - 1) ∧
    (ts = 0 → check_sub_protocol k sc pv = pv) := by
  have hz := (parseHint_ne_zero sc tp ts h).2
  unfold check_sub_protocol
  rw [h]
  dsimp only
  rw [if_pos hlt, if_pos hz]
  exact ⟨fun _ => rfl, fun hts => absurd hts hz⟩

/-- Witness for C5: peer hint "28.2" against working version 30 yields 27. -/
theorem C5_peer_behind_witness :
    check_sub_protocol kFinal (some "28.2") 30 = 28 - 1 :=
  (C5_peer_behind kFinal (some "28.2") 30 28 2 (by decide) (by decide)).1 (by decide)

/-- C9: `working_version` is monotonically non-increasing: the sub-protocol
resolver never raises the version it is given, the adjusted version entering
the exchange is at most the starting `protocol_version`, and any successful
exchange outcome is at most that adjusted version. -/
theorem C9_monotone (k : ProtoConsts) (c : Config) (sc : Option String)
    (pv wire : Int) :
    check_sub_protocol k sc pv ≤ pv ∧
    localWorking k c ≤ c.protocol_version ∧
    (∀ pv2 rp, (negotiateVersion k c wire).1 = Except.ok (pv2, rp) →
      pv2 ≤ localWorking k c) := by
  refine ⟨check_sub_protocol_le k sc pv, ?_, ?_⟩
  · unfold localWorking
    split
    · exact subAdjusted_le k c
    · exact le_refl _
  · intro pv2 rp hok
    unfold negotiateVersion at hok
    unfold localWorking
    by_cases h0 : c.remote_protocol = 0
    · rw [if_pos h0] at hok ⊢
      dsimp only at hok
      by_cases hb : c.read_batch ∧ wire > (if subAdjusted k c > wire then wire else subAdjusted k c)
      · rw [if_pos hb] at hok
        exact absurd hok (by simp)
      · rw [if_neg hb] at hok
        have := (Prod.mk.injEq .. ▸ Except.ok.injEq .. ▸ hok)
        obtain ⟨h1, -⟩ := this
        rw [← h1]
        split <;> omega
    · rw [if_neg h0] at hok ⊢
      dsimp only at hok
      by_cases hb : c.read_batch ∧ c.remote_protocol > c.protocol_version
      · rw [if_pos hb] at hok
        exact absurd hok (by simp)
      · rw [if_neg hb] at hok
        have := (Prod.mk.injEq .. ▸ Except.ok.injEq .. ▸ hok)
        obtain ⟨h1, -⟩ := this
        omega

/-- Witness for C9 at a concrete live session, instantiating the exchange
clause at its actual outcome. -/
theorem C9_monotone_witness :
    (28 : Int) ≤ localWorking kFinal baseCfg :=
  (C9_monotone kFinal baseCfg none 30 28).2.2 28 28 rfl

/-- C1: in a live exchange between two final releases (sub-protocol revision
0 locally and no parsable pre-release hint from the peer, so the resolver
demotes nothing), the negotiated working version is the minimum of the local
maximum and the remote version. -/
theorem C1_live_final_min (k : ProtoConsts) (c : Config) (wire : Int)
    (hlive : c.remote_protocol = 0) (hnb : c.read_batch = false)
    (hhint : parseHint c.shell_cmd = none)
    (hsub : ourSub k c.protocol_version = 0) :
    (negotiateVersion k c wire).1 =
      Except.ok (min c.protocol_version wire, wire) := by
  have hadj : subAdjusted k c = c.protocol_version := by
    unfold subAdjusted
    split
    · rw [check_sub_protocol_of_none k c.shell_cmd c.protocol_version hhint]
      exact if_neg (fun hn => hn hsub)
    · rfl
  have hmin : (if c.protocol_version > wire then wire else c.protocol_version) =
      min c.protocol_version wire := by
    rw [min_def]
    by_cases hle : c.protocol_version ≤ wire
    · rw [if_neg (by omega), if_pos hle]
    · rw [if_pos (by omega), if_neg hle]
  unfold negotiateVersion
  rw [if_pos hlive]
  dsimp only
  rw [hadj, hmin, if_neg (fun hc => by rw [hnb] at hc; exact Bool.false_ne_true hc.1)]

/-- Witness for C1: a final-release client at 30 against a remote 28. -/
theorem C1_live_final_min_witness :
    (negotiateVersion kFinal baseCfg 28).1 = Except.ok (min 30 28, 28) :=
  C1_live_final_min kFinal baseCfg 28 rfl rfl rfl rfl

/-- At a working version of 30 or more, every feature gate passes, the
generator-message flag is set, and hard-link preservation disables
incremental recursion. -/
theorem featureGates_ge30 (c : Config) (pv : Int) (h : (30:Int) ≤ pv) :
    ∃ r : GateOut, featureGates c pv = Except.ok r ∧
      r.need_messages_from_generator = true ∧
      (c.preserve_hard_links = true → r.inc_recurse = false) := by
  have h30 : ¬ pv < 30 := by omega
  have h29 : ¬ pv < 29 := by omega
  unfold featureGates
  rw [if_neg (fun hc => h30 hc.1), if_neg (fun hc => h30 hc.1),
    if_neg (fun hc => h30 hc.1)]
  by_cases hdm : c.delete_mode ∧ ¬ (c.delete_before ∨ c.delete_during ∨ c.delete_after)
  · rw [if_pos hdm, if_neg h30]
    dsimp only
    rw [if_neg (fun hc => h29 hc.1), if_neg (fun hc => h29 hc.1),
      if_neg (fun hc => h29 hc.1), if_neg (fun hc => h29 hc.1)]
    refine ⟨_, rfl, ?_, ?_⟩
    · dsimp only
      exact if_pos h
    · intro hhl
      dsimp only
      simp only [hhl, decide_eq_false_iff_not]
      rintro ⟨-, -, -, h4, -⟩
      exact h4 trivial
  · rw [if_neg hdm]
    dsimp only
    rw [if_neg (fun hc => h29 hc.1), if_neg (fun hc => h29 hc.1),
      if_neg (fun hc => h29 hc.1), if_neg (fun hc => h29 hc.1)]
    refine ⟨_, rfl, ?_, ?_⟩
    · dsimp only
      exact if_pos h
    · intro hhl
      dsimp only
      simp only [hhl, decide_eq_false_iff_not]
      rintro ⟨-, -, -, h4, -⟩
      exact h4 trivial

/-- C6: at any version of 30 or more, whenever hard-link preservation is
requested, the resolved policy has incremental recursion off, whatever the
other flags. -/
theorem C6_hard_links_block_inc_recurse (c : Config) (pv : Int) (r : GateOut)
    (h30 : (30:Int) ≤ pv) (hhl : c.preserve_hard_links = true)
    (hok : featureGates c pv = Except.ok r) : r.inc_recurse = false := by
  obtain ⟨r2, he, -, hi⟩ := featureGates_ge30 c pv h30
  rw [he] at hok
  obtain rfl : r2 = r := Except.ok.injEq .. ▸ hok
  exact hi hhl

/-- A recursive configuration that also preserves hard links. -/
def hardLinkCfg : Config :=
  { baseCfg with preserve_hard_links := true, recurse := true,
                 allow_inc_recurse := true }

/-- Witness for C6 at a concrete eligible-but-for-hard-links session. -/
theorem C6_hard_links_block_inc_recurse_witness :
    GateOut.inc_recurse ⟨false, false, false, false, true⟩ = false :=
  C6_hard_links_block_inc_recurse hardLinkCfg 30 ⟨false, false, false, false, true⟩
    (by norm_num) rfl rfl

/-- C10: at a working version of 30 or more, no feature-version gate can
fail: every error branch of the validator is behind a `< 30` or `< 29`
test. -/
theorem C10_no_feature_errors_ge30 (c : Config) (pv : Int)
    (h : (30:Int) ≤ pv) : (featureGates c pv).isOk = true := by
  obtain ⟨r, he, -, -⟩ := featureGates_ge30 c pv h
  rw [he]
  rfl

/-- Witness for C10 at version 30 with a plain configuration. -/
theorem C10_no_feature_errors_ge30_witness :
    (featureGates baseCfg 30).isOk = true :=
  C10_no_feature_errors_ge30 baseCfg 30 (by norm_num)

/-- A client that requests empty-directory pruning only. -/
def pruneCfg : Config := { baseCfg with prune_empty_dirs := true }

/-- C2 counterexample: with a remote version of 29 (negotiated version 29,
local maximum 30), a request for empty-directory pruning passes validation —
the prune gate only fires below 29 — so the claimed failure at 29 does not
happen. -/
theorem C2_counterexample :
    setup_protocol kFinal pruneCfg 29 0 7 =
      Except.ok ⟨⟨1, 0, 0, 0, 0⟩, 29, 29, false,
        ⟨false, false, false, false, false⟩, none, 7, [30]⟩ := by
  rfl

/-- C2 amended: when the negotiated version is below 29 (for instance a
remote version of 28) and empty-directory pruning is requested, with no
earlier feature gate firing, validation fails with the feature-version error
naming `--prune-empty-dirs` and the floor 29. -/
theorem C2_amended_prune_floor (c : Config) (pv : Int)
    (hpr : c.prune_empty_dirs = true) (hlt : pv < 29)
    (hmd : ¬ (c.max_delete = 0 ∧ c.am_sender))
    (hac : ¬ (c.preserve_acls ∧ ¬ c.local_server))
    (hxa : ¬ (c.preserve_xattrs ∧ ¬ c.local_server))
    (hfz : c.fuzzy_basis = false)
    (hbi : ¬ (c.basis_dir_cnt ≠ 0 ∧ c.inplace))
    (hbm : ¬ c.basis_dir_cnt > 1) :
    featureGates c pv =
      Except.error (RError.featureVersion "--prune-empty-dirs" 29 pv) := by
  unfold featureGates
  rw [if_neg (fun hc => hmd hc.2), if_neg (fun hc => hac hc.2),
    if_neg (fun hc => hxa hc.2)]
  by_cases hdm : c.delete_mode ∧ ¬ (c.delete_before ∨ c.delete_during ∨ c.delete_after)
  · rw [if_pos hdm]
    by_cases h30 : pv < 30
    · rw [if_pos h30]
      dsimp only
      rw [if_neg (fun hc => by rw [hfz] at hc; exact Bool.false_ne_true hc.2),
        if_neg (fun hc => hbi hc.2), if_neg (fun hc => hbm hc.2),
        if_pos ⟨hlt, hpr⟩]
    · omega
  · rw [if_neg hdm]
    dsimp only
    rw [if_neg (fun hc => by rw [hfz] at hc; exact Bool.false_ne_true hc.2),
      if_neg (fun hc => hbi hc.2), if_neg (fun hc => hbm hc.2),
      if_pos ⟨hlt, hpr⟩]

/-- Witness for the amended C2 at negotiated version 28. -/
theorem C2_amended_prune_floor_witness :
    featureGates pruneCfg 28 =
      Except.error (RError.featureVersion "--prune-empty-dirs" 29 28) :=
  C2_amended_prune_floor pruneCfg 28 rfl (by norm_num) (by simp [pruneCfg, baseCfg])
    (by simp [pruneCfg, baseCfg]) (by simp [pruneCfg, baseCfg]) rfl
    (by simp [pruneCfg, baseCfg]) (by simp [pruneCfg, baseCfg])

/-- C7: in replay mode, when the recorded remote version exceeds the locally
supported working version the exchange fails with the batch protocol error,
and no outbound write of the version is performed. -/
theorem C7_replay_guard (k : ProtoConsts) (c : Config) (wire : Int)
    (hb : c.read_batch = true)
    (hgt : recordedVersion c wire > localWorking k c) :
    (negotiateVersion k c wire).1 =
      Except.error (RError.batchTooNew (recordedVersion c wire) (localWorking k c)) ∧
    (negotiateVersion k c wire).2 = [] := by
  by_cases h0 : c.remote_protocol = 0
  · rw [recordedVersion, localWorking, if_pos h0, if_pos h0] at hgt ⊢
    unfold negotiateVersion
    rw [if_pos h0]
    dsimp only
    rw [if_pos hb]
    have hpv1 : (if subAdjusted k c > wire then wire else subAdjusted k c) =
        subAdjusted k c := if_neg (by omega)
    rw [hpv1, if_pos ⟨hb, hgt⟩]
    exact ⟨rfl, rfl⟩
  · rw [recordedVersion, localWorking, if_neg h0, if_neg h0] at hgt ⊢
    unfold negotiateVersion
    rw [if_neg h0]
    dsimp only
    rw [if_pos ⟨hb, hgt⟩]
    exact ⟨rfl, rfl⟩

/-- A batch-replay session. -/
def replayCfg : Config := { baseCfg with read_batch := true }

/-- Witness for C7: a recorded version 31 against a local maximum of 30. -/
theorem C7_replay_guard_witness :
    (negotiateVersion kFinal replayCfg 31).1 =
      Except.error (RError.batchTooNew (recordedVersion replayCfg 31)
        (localWorking kFinal replayCfg)) ∧
    (negotiateVersion kFinal replayCfg 31).2 = [] :=
  C7_replay_guard kFinal replayCfg 31 rfl (by decide)

/-- A client whose requested partial-staging path is the empty string. -/
def emptyPartialCfg : Config := { baseCfg with partial_dir := some "" }

/-- C8 counterexample: with an empty staging path the claimed registration
conditions ("non-empty") are not met, yet the code registers a rule — the
source never tests for emptiness, only for a leading slash. -/
theorem C8_counterexample :
    partialRule emptyPartialCfg 30 = some ("", ⟨true, true, true⟩) := by
  rfl

/-- C8 amended: every registered rule carries the perishable flag exactly
when this side is not the sending role or the version is at least 30; and
when the path is absent or root-anchored, or this side is a server without
local loopback, no rule is registered (emptiness of the path is not
checked). -/
theorem C8_amended_rule_flags (c : Config) (pv : Int) :
    (∀ s fl, partialRule c pv = some (s, fl) →
      (fl.perishableBit = true ↔ (c.am_sender = false ∨ (30:Int) ≤ pv))) ∧
    ((c.partial_dir = none ∨
      (∃ s, c.partial_dir = some s ∧ s.data.head? = some '/') ∨
      (c.am_server = true ∧ c.local_server = false)) →
      partialRule c pv = none) := by
  constructor
  · intro s fl h
    unfold partialRule at h
    cases hpd : c.partial_dir with
    | none => rw [hpd] at h; exact absurd h (by simp)
    | some s2 =>
      rw [hpd] at h
      dsimp only at h
      by_cases hc : s2.data.head? ≠ some '/' ∧ (¬ c.am_server ∨ c.local_server)
      · rw [if_pos hc] at h
        obtain ⟨-, rfl⟩ := Prod.mk.injEq .. ▸ Option.some.injEq .. ▸ h
        dsimp only
        cases hsnd : c.am_sender with
        | false => simp
        | true => simp [GE.ge]
      · rw [if_neg hc] at h
        exact absurd h (by simp)
  · intro hdisj
    unfold partialRule
    rcases hdisj with hnone | ⟨s, hsome, hslash⟩ | ⟨hsrv, hloc⟩
    · rw [hnone]
    · rw [hsome]
      dsimp only
      exact if_neg (fun hc => hc.1 hslash)
    · cases hpd : c.partial_dir with
      | none => rfl
      | some s =>
        dsimp only
        refine if_neg (fun hc => ?_)
        rcases hc.2 with hns | hl
        · exact hns hsrv
        · rw [hloc] at hl
          exact Bool.false_ne_true hl

/-- A server (no local loopback) requesting a staging path. -/
def srvPartialCfg : Config :=
  { baseCfg with partial_dir := some "x", am_server := true }

/-- Witness for the amended C8: a genuine server registers nothing. -/
theorem C8_amended_rule_flags_witness :
    partialRule srvPartialCfg 31 = none :=
  (C8_amended_rule_flags srvPartialCfg 31).2 (Or.inr (Or.inr ⟨rfl, rfl⟩))

end RsyncCompat
